import Mathlib

/-!
Verification of the thinking-budget sampling loop in
`Blog/s1-vllm-thinking-budget/s1.py`.

Modelling choices (shallow embedding):
* Python strings are modelled as `List Char` (`Str`); Python's
  `str.split(sep)` (non-overlapping, left-to-right) is modelled by `split`.
* The external generation engine (`vllm.LLM`) is a parameter: a function
  from the input text and the sampling parameters to a request output
  carrying the echoed prompt (`outputs[0].prompt`) and the generated
  continuation (`outputs[0].outputs[0].text`).
* The external tokenizer is a parameter with an `encode` function
  (`tokenizer(text)["input_ids"]`) and a chat-template renderer
  (`tokenizer.apply_chat_template`).
* The Python `while True:` loop becomes a fuel-indexed recursion
  `budgetLoop`; exhausting the fuel yields `LoopOutcome.fuelExhausted`,
  taking the `break` yields `LoopOutcome.exited`.  The loop additionally
  records a ghost trace of the generation calls it issues (input text,
  sampling parameters, and the thinking-token count before and after the
  call); the trace does not influence control flow.
* The float literal `temperature=0.7` is modelled as the rational `7/10`.
-/

set_option maxHeartbeats 1000000
set_option maxRecDepth 100000

namespace S1

/-- Python strings as lists of characters. -/
abbrev Str := List Char

/-- The separator `"<think>\n"` used by `count_thinking_token`. -/
def thinkOpenTag : Str := "<think>\n".toList

/-- The separator `"<think>"` used when extracting `thinking_content`. -/
def thinkTag : Str := "<think>".toList

/-- The closing reasoning marker `"</think>"` (the in-loop stop string). -/
def closeTag : Str := "</think>".toList

/-- The string `"\n</think>\n"` appended before the final generation call. -/
def forcedCloseMarker : Str := "\n</think>\n".toList

/-- The forcing continuation marker `"\nWait!\n"` appended between rounds. -/
def waitMarker : Str := "\nWait!\n".toList

/-- `vllm.SamplingParams` as used by `s1.py`. -/
structure SamplingParams where
  temperature : Rat
  max_tokens : Int
  stop : Option Str := none
  skip_special_tokens : Bool
deriving Repr, DecidableEq

/-- One generation result: `outputs[0].prompt` and `outputs[0].outputs[0].text`. -/
structure RequestOutput where
  prompt : Str
  text : Str
deriving Repr, DecidableEq

/-- A chat message, as built by `build_input`. -/
structure Message where
  role : Str
  content : Str

/-- The external tokenizer: `encode` models `tokenizer(text)["input_ids"]`,
`apply_chat_template` models `tokenizer.apply_chat_template(messages,
tokenize, add_generation_prompt, enable_thinking)`. -/
structure Tokenizer where
  encode : Str → List Nat
  apply_chat_template : List Message → Bool → Bool → Bool → Str

/-- The external generation engine: `llm_model.generate(input_text, params)`. -/
structure LLM where
  generate : Str → SamplingParams → RequestOutput

/-- Auxiliary scanner for `split`: left-to-right, non-overlapping matches of
the separator `sep`, accumulating the current piece in `acc`; when a match
is found the remaining `sep.length - 1` matched characters are consumed via
the `skip` counter (structural recursion, so the kernel can evaluate it). -/
def splitAux (sep : Str) : Str → Str → Nat → List Str
  | [], acc, _ => [acc]
  | c :: cs, acc, skip =>
    match skip with
    | n + 1 => splitAux sep cs acc n
    | 0 =>
      if sep.isPrefixOf (c :: cs) then
        acc :: splitAux sep cs [] (sep.length - 1)
      else
        splitAux sep cs (acc ++ [c]) 0

/-- Python's `s.split(sep)` for a non-empty separator (the only case the
source uses; Python raises on an empty separator). -/
def split (sep s : Str) : List Str :=
  match sep with
  | [] => [s]
  | _ :: _ => splitAux sep s [] 0

/-- `count_thinking_token(outputs, tokenizer)` from `s1.py`: concatenate the
echoed prompt and the continuation, take the text after the last
`"<think>\n"`, and return the concatenation together with the token length
of that suffix. -/
def count_thinking_token (outputs : RequestOutput) (tokenizer : Tokenizer) :
    Str × Nat :=
  let total_token := outputs.prompt ++ outputs.text
  let thinking_token := (split thinkOpenTag total_token).getLastD []
  let thinking_token_id := tokenizer.encode thinking_token
  (total_token, thinking_token_id.length)

/-- `count_token(string, tokenizer)` from `s1.py`. -/
def count_token (s : Str) (tokenizer : Tokenizer) : Nat :=
  (tokenizer.encode s).length

/-- The fixed system instruction of `build_input`. -/
def systemContent : Str :=
  "Please reason step by step, and put your final answer within \\boxed\x7b\x7b\x7d\x7d.".toList

/-- `build_input(prompt, tokenizer)` from `s1.py`: render the chat template
over the fixed system message and the user prompt, with `tokenize=False`,
`add_generation_prompt=True`, `enable_thinking=True`. -/
def build_input (prompt : Str) (tokenizer : Tokenizer) : Str :=
  tokenizer.apply_chat_template
    [{ role := "system".toList, content := systemContent },
     { role := "user".toList, content := prompt }]
    false true true

/-- The in-loop sampling parameters (`wait_sampling_params` in `s1.py`):
`max_tokens = thinking_budget - think_token_count` (an `int` that may go
negative in Python, hence `Int`), `stop='</think>'`,
`skip_special_tokens=False`. -/
def waitSamplingParams (thinking_budget think_token_count : Nat) :
    SamplingParams :=
  { temperature := 7 / 10,
    max_tokens := (thinking_budget : Int) - (think_token_count : Int),
    stop := some closeTag,
    skip_special_tokens := false }

/-- The post-loop sampling parameters (`sampling_params` in `s1.py`):
`max_tokens=4096`, no stop string, `skip_special_tokens=False`. -/
def finalSamplingParams : SamplingParams :=
  { temperature := 7 / 10,
    max_tokens := 4096,
    stop := none,
    skip_special_tokens := false }

/-- Ghost record of one in-loop generation call. -/
structure CallRecord where
  input : Str
  params : SamplingParams
  count_before : Nat
  count_after : Nat
deriving Repr, DecidableEq

/-- The ghost record of a round that entered with `think_token_count = c`
on input `s` and measured `after` thinking tokens. -/
def mkCallRecord (s : Str) (thinking_budget c after : Nat) : CallRecord :=
  { input := s, params := waitSamplingParams thinking_budget c,
    count_before := c, count_after := after }

/-- The loop state at the `break`: the last outputs, the final
`think_token_count`, the final `iteration_count`, and the ghost call trace. -/
structure LoopResult where
  outputs : RequestOutput
  think_token_count : Nat
  iteration_count : Nat
  trace : List CallRecord
deriving Repr, DecidableEq

/-- Outcome of running the `while True:` loop with a given amount of fuel. -/
inductive LoopOutcome where
  | exited (res : LoopResult)
  | fuelExhausted (trace : List CallRecord)
deriving Repr, DecidableEq

/-- The generation calls recorded by a loop outcome. -/
def LoopOutcome.callTrace : LoopOutcome → List CallRecord
  | .exited res => res.trace
  | .fuelExhausted tr => tr

/-- Whether the loop took its `break`. -/
def LoopOutcome.isExited : LoopOutcome → Bool
  | .exited _ => true
  | .fuelExhausted _ => false

/-- The `while True:` loop of `run_thinking_budget_sample` (lines 43-67 of
`s1.py`), fuel-indexed.  Each round issues one generation call capped at
`thinking_budget - think_token_count` with stop `'</think>'`, re-measures
the thinking-token count from the accumulated text, breaks if the count
exceeds the budget, and otherwise appends `"\nWait!\n"` and increments
`iteration_count`. -/
def budgetLoop (llm_model : LLM) (tokenizer : Tokenizer)
    (thinking_budget : Nat) :
    Nat → Str → Nat → Nat → List CallRecord → LoopOutcome
  | 0, _, _, _, trace => .fuelExhausted trace
  | fuel + 1, input_text, think_token_count, iteration_count, trace =>
    let wait_sampling_params := waitSamplingParams thinking_budget think_token_count
    let outputs := llm_model.generate input_text wait_sampling_params
    let r := count_thinking_token outputs tokenizer
    let record : CallRecord :=
      mkCallRecord input_text thinking_budget think_token_count r.2
    if r.2 > thinking_budget then
      .exited { outputs := outputs, think_token_count := r.2,
                iteration_count := iteration_count, trace := trace ++ [record] }
    else
      budgetLoop llm_model tokenizer thinking_budget fuel
        (r.1 ++ waitMarker) r.2 (iteration_count + 1) (trace ++ [record])

/-- Observable result of `run_thinking_budget_sample` (pure data; printing
and the file write are side effects carrying the same values). -/
structure RunResult where
  input_token_count : Nat
  max_token : Nat
  iteration_count : Nat
  think_token_count : Nat
  loop_outputs : RequestOutput
  loop_trace : List CallRecord
  post_loop_calls : List (Str × SamplingParams)
  total_content : Str
  thinking_content : Str
  reported_thinking_count : Nat
  reported_total_count : Nat
deriving Repr, DecidableEq

/-- `run_thinking_budget_sample(llm_model, tokenizer, user_input,
thinking_budget)` from `s1.py`.  `fuel` bounds the `while True:` loop;
`none` means the fuel ran out before the loop exited. -/
def run_thinking_budget_sample (llm_model : LLM) (tokenizer : Tokenizer)
    (user_input : Str) (thinking_budget : Nat) (fuel : Nat) :
    Option RunResult :=
  let input_text := build_input user_input tokenizer
  let input_token_count := count_token input_text tokenizer
  let max_token := input_token_count + thinking_budget
  match budgetLoop llm_model tokenizer thinking_budget fuel input_text 0 0 [] with
  | .fuelExhausted _ => none
  | .exited res =>
    let final_input := res.outputs.prompt ++ res.outputs.text ++ forcedCloseMarker
    let final_outputs := llm_model.generate final_input finalSamplingParams
    let total_content := final_outputs.prompt ++ final_outputs.text
    let thinking_content :=
      (split closeTag ((split thinkTag total_content).getLastD [])).headD []
    some { input_token_count := input_token_count,
           max_token := max_token,
           iteration_count := res.iteration_count,
           think_token_count := res.think_token_count,
           loop_outputs := res.outputs,
           loop_trace := res.trace,
           post_loop_calls := [(final_input, finalSamplingParams)],
           total_content := total_content,
           thinking_content := thinking_content,
           reported_thinking_count := count_token thinking_content tokenizer,
           reported_total_count := count_token total_content tokenizer }

/-- Number of occurrences of the character `X` in a string (the mock
tokenizers below count each `X` as one token). -/
def countX (s : Str) : Nat := (s.filter (fun c => c == 'X')).length

/-- Mock tokenizer: every `X` is one token, everything else is ignored; the
chat template renders every conversation as `"P"`. -/
def tokX : Tokenizer :=
  { encode := fun s => (s.filter (fun c => c == 'X')).map (fun _ => 1),
    apply_chat_template := fun _ _ _ _ => ['P'] }

/-- Mock model that emits exactly `N` tokens of reasoning (`N` copies of
`X`) per generation call and echoes its prompt, ignoring the sampling
parameters (in particular its own stop marker ends the call). -/
def mockLLM (N : Nat) : LLM :=
  { generate := fun s _ => { prompt := s, text := List.replicate N 'X' } }

/-- The loop state before round `k` (input text and `think_token_count`),
assuming every round so far continued: round `k+1` issues the same
generation call the loop would issue and appends `"\nWait!\n"`. -/
def roundState (llm_model : LLM) (tokenizer : Tokenizer)
    (thinking_budget : Nat) (s0 : Str) : Nat → Str × Nat
  | 0 => (s0, 0)
  | k + 1 =>
    let p := roundState llm_model tokenizer thinking_budget s0 k
    let r := count_thinking_token
      (llm_model.generate p.1 (waitSamplingParams thinking_budget p.2)) tokenizer
    (r.1 ++ waitMarker, r.2)

/-- The thinking-token count measured by the `k`-th generation call
(0-indexed), assuming every earlier round continued. -/
def measuredSeq (llm_model : LLM) (tokenizer : Tokenizer)
    (thinking_budget : Nat) (s0 : Str) (k : Nat) : Nat :=
  (roundState llm_model tokenizer thinking_budget s0 (k + 1)).2

/-- Pathological mock model: every generation call re-opens the reasoning
segment — its whole output is a fresh `"<think>\n"` marker (and it echoes
no prompt), so the text after the last `"<think>\n"` is always empty. -/
def reopenLLM : LLM :=
  { generate := fun _ _ => { prompt := [], text := thinkOpenTag } }

/-- Mock tokenizer that counts every character as one token; the chat
template renders every conversation as `"P"`. -/
def charTok : Tokenizer :=
  { encode := fun s => s.map Char.toNat,
    apply_chat_template := fun _ _ _ _ => ['P'] }

/-- Mock model whose continuation opens with its own `"</think>"` stop
marker followed by six `X` tokens, echoing the prompt. -/
def earlyCloseLLM : LLM :=
  { generate := fun s _ => { prompt := s, text := "</think>XXXXXX".toList } }

/-- Mock tokenizer under which every `X` costs 100 tokens; the chat
template renders every conversation as `"P"`. -/
def tok100 : Tokenizer :=
  { encode := fun s => List.replicate (100 * (s.filter (fun c => c == 'X')).length) 1,
    apply_chat_template := fun _ _ _ _ => ['P'] }

/-- Some model/tokenizer/budget makes the loop issue a generation call
whose `max_tokens` cap is zero. -/
def zeroCapIssued : Prop :=
  ∃ (llm_model : LLM) (tokenizer : Tokenizer) (thinking_budget fuel : Nat)
    (input_text : Str),
    ∃ e ∈ (budgetLoop llm_model tokenizer thinking_budget fuel
        input_text 0 0 []).callTrace,
      e.params.max_tokens = 0

/-- Some model/tokenizer/budget makes the loop issue a generation call
whose `max_tokens` cap is negative. -/
def negCapIssued : Prop :=
  ∃ (llm_model : LLM) (tokenizer : Tokenizer) (thinking_budget fuel : Nat)
    (input_text : Str),
    ∃ e ∈ (budgetLoop llm_model tokenizer thinking_budget fuel
        input_text 0 0 []).callTrace,
      e.params.max_tokens < 0

theorem splitAux_of_not_mem (d : Char) (ds : Str) :
    ∀ (s acc : Str), d ∉ s → splitAux (d :: ds) s acc 0 = [acc ++ s] := by
  intro s
  induction s with
  | nil => intro acc _; simp [splitAux]
  | cons c cs ih =>
    intro acc h
    have hdc : (d == c) = false := by
      simp only [beq_eq_false_iff_ne]
      intro he; exact h (he ▸ List.mem_cons_self c cs)
    have hcs : d ∉ cs := fun hm => h (List.mem_cons_of_mem c hm)
    have hpre : (d :: ds).isPrefixOf (c :: cs) = false := by
      simp [List.isPrefixOf, hdc]
    rw [splitAux, hpre]
    simp only [Bool.false_eq_true, if_false]
    rw [ih (acc ++ [c]) hcs]
    simp

theorem split_of_not_mem (d : Char) (ds s : Str) (h : d ∉ s) :
    split (d :: ds) s = [s] := by
  rw [split, splitAux_of_not_mem d ds s [] h]
  simp

/-- When the accumulated text contains no `<` at all, `count_thinking_token`
returns the whole text and its token length. -/
theorem count_thinking_token_of_not_mem (out : RequestOutput) (tok : Tokenizer)
    (h : '<' ∉ out.prompt ++ out.text) :
    count_thinking_token out tok =
      (out.prompt ++ out.text, (tok.encode (out.prompt ++ out.text)).length) := by
  have hopen : thinkOpenTag = '<' :: "think>\n".toList := rfl
  rw [count_thinking_token, hopen, split_of_not_mem _ _ _ h]
  simp

/-- Helper: whenever the loop exits, the final `think_token_count` exceeds
the budget (the `break` is guarded by `think_token_count > thinking_budget`). -/
theorem budgetLoop_exit_gt (llm_model : LLM) (tokenizer : Tokenizer) (B : Nat) :
    ∀ (fuel : Nat) (s : Str) (c i : Nat) (tr : List CallRecord)
      (res : LoopResult),
      budgetLoop llm_model tokenizer B fuel s c i tr = .exited res →
      B < res.think_token_count := by
  intro fuel
  induction fuel with
  | zero => intro s c i tr res h; simp [budgetLoop] at h
  | succ n ih =>
    intro s c i tr res h
    simp only [budgetLoop] at h
    by_cases hgt :
        (count_thinking_token
          (llm_model.generate s (waitSamplingParams B c)) tokenizer).2 > B
    · rw [if_pos hgt] at h
      injection h with h2
      subst h2
      exact hgt
    · rw [if_neg hgt] at h
      exact ih _ _ _ _ _ h

/-- Helper: whenever the loop exits, the length of the call trace exceeds
the trace handed in by exactly `iteration_count - i + 1` (each round makes
one call; only continuing rounds increment `iteration_count`). -/
theorem budgetLoop_trace_iter (llm_model : LLM) (tokenizer : Tokenizer) (B : Nat) :
    ∀ (fuel : Nat) (s : Str) (c i : Nat) (tr : List CallRecord)
      (res : LoopResult),
      budgetLoop llm_model tokenizer B fuel s c i tr = .exited res →
      i ≤ res.iteration_count ∧
        res.trace.length + i = tr.length + res.iteration_count + 1 := by
  intro fuel
  induction fuel with
  | zero => intro s c i tr res h; simp [budgetLoop] at h
  | succ n ih =>
    intro s c i tr res h
    simp only [budgetLoop] at h
    by_cases hgt :
        (count_thinking_token
          (llm_model.generate s (waitSamplingParams B c)) tokenizer).2 > B
    · rw [if_pos hgt] at h
      injection h with h2
      subst h2
      simp
      omega
    · rw [if_neg hgt] at h
      have := ih _ _ _ _ _ h
      simp at this
      omega

/-- Helper: every generation call the loop ever issues (whether or not the
loop exits within the given fuel) has a non-negative `max_tokens` cap,
provided the entry count is within budget: the loop breaks as soon as the
count exceeds the budget, so `thinking_budget - think_token_count ≥ 0` at
every call. -/
theorem budgetLoop_cap_nonneg (llm_model : LLM) (tokenizer : Tokenizer) (B : Nat) :
    ∀ (fuel : Nat) (s : Str) (c i : Nat) (tr : List CallRecord),
      c ≤ B → (∀ e ∈ tr, 0 ≤ e.params.max_tokens) →
      ∀ e ∈ (budgetLoop llm_model tokenizer B fuel s c i tr).callTrace,
        0 ≤ e.params.max_tokens := by
  intro fuel
  induction fuel with
  | zero =>
    intro s c i tr _ htr e he
    exact htr e he
  | succ n ih =>
    intro s c i tr hc htr e he
    simp only [budgetLoop] at he
    split at he
    next hgt =>
      simp only [LoopOutcome.callTrace] at he
      rcases List.mem_append.mp he with h1 | h2
      · exact htr e h1
      · rw [List.mem_singleton] at h2
        subst h2
        simp [mkCallRecord, waitSamplingParams]
        omega
    next hgt =>
      refine ih _ _ _ _ (Nat.not_lt.mp hgt) ?_ e he
      intro e' he'
      rcases List.mem_append.mp he' with h1 | h2
      · exact htr e' h1
      · rw [List.mem_singleton] at h2
        subst h2
        simp [mkCallRecord, waitSamplingParams]
        omega

/-- Helper: inversion of a successful `run_thinking_budget_sample`: the loop
exited with some `LoopResult`, and the run's fields are determined by it. -/
theorem run_some_inv (llm_model : LLM) (tokenizer : Tokenizer)
    (user_input : Str) (thinking_budget fuel : Nat) (r : RunResult)
    (h : run_thinking_budget_sample llm_model tokenizer user_input
        thinking_budget fuel = some r) :
    ∃ res, budgetLoop llm_model tokenizer thinking_budget fuel
        (build_input user_input tokenizer) 0 0 [] = .exited res ∧
      r.think_token_count = res.think_token_count ∧
      r.iteration_count = res.iteration_count ∧
      r.loop_trace = res.trace ∧
      r.loop_outputs = res.outputs ∧
      r.post_loop_calls =
        [(res.outputs.prompt ++ res.outputs.text ++ forcedCloseMarker,
          finalSamplingParams)] := by
  simp only [run_thinking_budget_sample] at h
  cases hb : budgetLoop llm_model tokenizer thinking_budget fuel
      (build_input user_input tokenizer) 0 0 [] with
  | fuelExhausted tr =>
    rw [hb] at h
    exact absurd h (by simp)
  | exited res =>
    rw [hb] at h
    injection h with h2
    subst h2
    exact ⟨res, rfl, rfl, rfl, rfl, rfl, rfl⟩

/-- Helper: with the re-opening model and the character tokenizer, the
measured thinking-token count of every generation call is zero, so the loop
never exits, whatever the fuel. -/
theorem reopen_never_exits_aux (B : Nat) :
    ∀ (fuel : Nat) (s : Str) (c i : Nat) (tr : List CallRecord),
      (budgetLoop reopenLLM charTok B fuel s c i tr).isExited = false := by
  intro fuel
  induction fuel with
  | zero => intro s c i tr; simp [budgetLoop, LoopOutcome.isExited]
  | succ n ih =>
    intro s c i tr
    have h0 : (count_thinking_token
        (reopenLLM.generate s (waitSamplingParams B c)) charTok).2 = 0 := rfl
    simp only [budgetLoop]
    rw [h0, if_neg (by omega : ¬ (0 > B))]
    exact ih _ _ _ _

/-- C2: the thinking-budget loop is not guaranteed to terminate by the
budget alone: under the pathological model `reopenLLM` (every response
re-opens the reasoning segment, keeping the measured cumulative count at 0
≤ B every round) the `while True:` loop of `run_thinking_budget_sample`
never exits, for every budget and every fuel bound — the loop has no
maximum-iteration guard. -/
theorem budget_alone_cannot_force_exit (thinking_budget fuel : Nat)
    (user_input : Str) :
    run_thinking_budget_sample reopenLLM charTok user_input thinking_budget
      fuel = none := by
  have h := reopen_never_exits_aux thinking_budget fuel
    (build_input user_input charTok) 0 0 []
  simp only [run_thinking_budget_sample]
  cases hb : budgetLoop reopenLLM charTok thinking_budget fuel
      (build_input user_input charTok) 0 0 [] with
  | fuelExhausted tr => rfl
  | exited res =>
    rw [hb] at h
    simp [LoopOutcome.isExited] at h

/-- C3 (amended): whenever `run_thinking_budget_sample` returns (the loop
exited), the `think_token_count` at loop exit strictly exceeds the budget:
the `break` is taken exactly when `think_token_count > thinking_budget`. -/
theorem exit_think_count_gt_budget (llm_model : LLM) (tokenizer : Tokenizer)
    (user_input : Str) (thinking_budget fuel : Nat) (r : RunResult)
    (h : run_thinking_budget_sample llm_model tokenizer user_input
        thinking_budget fuel = some r) :
    thinking_budget < r.think_token_count := by
  obtain ⟨res, hb, hc, -⟩ := run_some_inv _ _ _ _ _ _ h
  rw [hc]
  exact budgetLoop_exit_gt _ _ _ _ _ _ _ _ _ hb

/-- C10: the reported `iteration_count` equals the number of loop-body
executions (in-loop generation calls) minus one: it starts at 0 and is
incremented only on rounds that continue past the budget test. -/
theorem iteration_count_undercounts_rounds (llm_model : LLM)
    (tokenizer : Tokenizer) (user_input : Str) (thinking_budget fuel : Nat)
    (r : RunResult)
    (h : run_thinking_budget_sample llm_model tokenizer user_input
        thinking_budget fuel = some r) :
    r.iteration_count + 1 = r.loop_trace.length := by
  obtain ⟨res, hb, -, hi, ht, -⟩ := run_some_inv _ _ _ _ _ _ h
  have := budgetLoop_trace_iter _ _ _ _ _ _ _ _ _ hb
  rw [hi, ht]
  simp at this
  omega

/-- C5 (amended): whenever the loop exits, `run_thinking_budget_sample`
issues exactly one further generation call, whose input is the accumulated
text (last echoed prompt plus last continuation) followed by the forced
reasoning-close marker, and whose sampling parameters are the fixed
`finalSamplingParams` with `max_tokens = 4096` (not in general larger than
the in-loop caps). -/
theorem final_call_unique_shape (llm_model : LLM) (tokenizer : Tokenizer)
    (user_input : Str) (thinking_budget fuel : Nat) (r : RunResult)
    (h : run_thinking_budget_sample llm_model tokenizer user_input
        thinking_budget fuel = some r) :
    r.post_loop_calls =
      [(r.loop_outputs.prompt ++ r.loop_outputs.text ++ forcedCloseMarker,
        finalSamplingParams)] ∧
    finalSamplingParams.max_tokens = 4096 := by
  obtain ⟨res, hb, -, -, -, ho, hp⟩ := run_some_inv _ _ _ _ _ _ h
  rw [hp, ho]
  exact ⟨rfl, rfl⟩

/-- C7: whenever the loop exits, the input text passed to the final
generation call ends with the forced reasoning-close marker
`"\n</think>\n"` that the code appends to close the thinking segment. -/
theorem final_input_ends_with_close_marker (llm_model : LLM)
    (tokenizer : Tokenizer) (user_input : Str) (thinking_budget fuel : Nat)
    (r : RunResult)
    (h : run_thinking_budget_sample llm_model tokenizer user_input
        thinking_budget fuel = some r) :
    ∀ c ∈ r.post_loop_calls, forcedCloseMarker <:+ c.1 := by
  obtain ⟨res, hb, -, -, -, -, hp⟩ := run_some_inv _ _ _ _ _ _ h
  intro c hc
  rw [hp, List.mem_singleton] at hc
  subst hc
  exact ⟨res.outputs.prompt ++ res.outputs.text, by simp⟩

/-- C6: if the very first generation call already measures a thinking-token
count exceeding the budget, the loop body executes exactly once (one
in-loop generation call) before exiting. -/
theorem first_call_exceeding_budget_one_round (llm_model : LLM)
    (tokenizer : Tokenizer) (thinking_budget fuel : Nat) (s : Str)
    (h : thinking_budget < (count_thinking_token
        (llm_model.generate s (waitSamplingParams thinking_budget 0))
        tokenizer).2) :
    ∃ res, budgetLoop llm_model tokenizer thinking_budget (fuel + 1)
        s 0 0 [] = .exited res ∧ res.trace.length = 1 := by
  simp only [budgetLoop]
  rw [if_pos h]
  exact ⟨_, rfl, by simp⟩

/-- C4 (counterexample): the claim "some model response sequence makes a
generation call receive a zero cap AND some model response sequence makes a
generation call receive a negative cap" is false, because the negative case
is impossible: the loop breaks as soon as the measured count exceeds the
budget, so `thinking_budget - think_token_count` never goes negative. -/
theorem not_zero_and_negative_cap : ¬ (zeroCapIssued ∧ negCapIssued) := by
  rintro ⟨-, llm_model, tokenizer, B, fuel, s, e, he, hlt⟩
  have := budgetLoop_cap_nonneg llm_model tokenizer B fuel s 0 0 []
    (Nat.zero_le B) (by simp) e he
  omega

/-- C4 (amended): a zero cap is reachable (with budget 1 and a mock model
producing one thinking token per call, the second generation call is issued
with `max_tokens = 0`), but a negative cap is impossible: every generation
call the loop ever issues has `max_tokens ≥ 0`. -/
theorem zero_cap_reachable_negative_cap_impossible :
    zeroCapIssued ∧
      ∀ (llm_model : LLM) (tokenizer : Tokenizer)
        (thinking_budget fuel : Nat) (input_text : Str),
        ∀ e ∈ (budgetLoop llm_model tokenizer thinking_budget fuel
            input_text 0 0 []).callTrace,
          0 ≤ e.params.max_tokens := by
  constructor
  · exact ⟨mockLLM 1, tokX, 1, 10, ['P'], by decide⟩
  · intro llm_model tokenizer B fuel s e he
    exact budgetLoop_cap_nonneg llm_model tokenizer B fuel s 0 0 []
      (Nat.zero_le B) (by simp) e he

/-- Helper: appending the record of one more round preserves the trace
invariants (parameters built from the entry count, first entry count 0,
counts chained, last recorded count equal to the current count). -/
theorem trace_step (B c after : Nat) (s : Str) (tr : List CallRecord)
    (h1 : ∀ e ∈ tr, e.params = waitSamplingParams B e.count_before)
    (h2 : tr = [] → c = 0)
    (h3 : ∀ e ∈ tr.head?, e.count_before = 0)
    (h4 : List.Chain' (fun a b => b.count_before = a.count_after) tr)
    (h5 : ∀ e ∈ tr.getLast?, e.count_after = c) :
    (∀ e ∈ tr ++ [mkCallRecord s B c after],
        e.params = waitSamplingParams B e.count_before) ∧
    (tr ++ [mkCallRecord s B c after] = [] → after = 0) ∧
    (∀ e ∈ (tr ++ [mkCallRecord s B c after]).head?, e.count_before = 0) ∧
    List.Chain' (fun a b => b.count_before = a.count_after)
      (tr ++ [mkCallRecord s B c after]) ∧
    (∀ e ∈ (tr ++ [mkCallRecord s B c after]).getLast?,
        e.count_after = after) := by
  refine ⟨?_, ?_, ?_, ?_, ?_⟩
  · intro e he
    rcases List.mem_append.mp he with hm | hm
    · exact h1 e hm
    · rw [List.mem_singleton] at hm
      subst hm
      rfl
  · intro hemp
    exact absurd hemp (by simp)
  · intro e he
    cases tr with
    | nil =>
      simp at he
      subst he
      exact h2 rfl
    | cons a as =>
      simp at he
      subst he
      exact h3 a (by simp)
  · refine List.Chain'.append h4 (List.chain'_singleton _) ?_
    intro x hx y hy
    simp at hy
    subst hy
    exact (h5 x hx).symm
  · intro e he
    rw [List.getLast?_concat] at he
    simp at he
    subst he
    rfl

/-- Helper: every call the loop ever records has its parameters built from
its own entry count by `waitSamplingParams`, the first recorded call enters
with count 0, and consecutive records chain `count_after` to the next
`count_before` (so each cap is `thinking_budget` minus the previously
measured count). -/
theorem budgetLoop_trace_shape (llm_model : LLM) (tokenizer : Tokenizer)
    (B : Nat) :
    ∀ (fuel : Nat) (s : Str) (c i : Nat) (tr : List CallRecord),
      (∀ e ∈ tr, e.params = waitSamplingParams B e.count_before) →
      (tr = [] → c = 0) →
      (∀ e ∈ tr.head?, e.count_before = 0) →
      List.Chain' (fun a b => b.count_before = a.count_after) tr →
      (∀ e ∈ tr.getLast?, e.count_after = c) →
      (∀ e ∈ (budgetLoop llm_model tokenizer B fuel s c i tr).callTrace,
          e.params = waitSamplingParams B e.count_before) ∧
      (∀ e ∈ (budgetLoop llm_model tokenizer B fuel s c i tr).callTrace.head?,
          e.count_before = 0) ∧
      List.Chain' (fun a b => b.count_before = a.count_after)
        (budgetLoop llm_model tokenizer B fuel s c i tr).callTrace := by
  intro fuel
  induction fuel with
  | zero =>
    intro s c i tr h1 h2 h3 h4 h5
    exact ⟨h1, h3, h4⟩
  | succ n ih =>
    intro s c i tr h1 h2 h3 h4 h5
    obtain ⟨g1, g2, g3, g4, g5⟩ := trace_step B c
      (count_thinking_token
        (llm_model.generate s (waitSamplingParams B c)) tokenizer).2
      s tr h1 h2 h3 h4 h5
    simp only [budgetLoop]
    split
    next hgt => exact ⟨g1, g3, g4⟩
    next hgt => exact ih _ _ _ _ g1 g2 g3 g4 g5

/-- C8: every generation call issued inside the loop uses sampling
parameters with `max_tokens` equal to the budget minus the count measured
at the start of that round (the first round entering with count 0 and each
later round with the count measured by the previous call), stop string
`"</think>"`, and `skip_special_tokens = false`. -/
theorem in_loop_call_params (llm_model : LLM) (tokenizer : Tokenizer)
    (user_input : Str) (thinking_budget fuel : Nat) (r : RunResult)
    (h : run_thinking_budget_sample llm_model tokenizer user_input
        thinking_budget fuel = some r) :
    (∀ e ∈ r.loop_trace,
        e.params.max_tokens =
          (thinking_budget : Int) - (e.count_before : Int) ∧
        e.params.stop = some closeTag ∧
        e.params.skip_special_tokens = false) ∧
    (∀ e ∈ r.loop_trace.head?, e.count_before = 0) ∧
    List.Chain' (fun a b => b.count_before = a.count_after) r.loop_trace := by
  obtain ⟨res, hb, -, -, ht, -, -⟩ := run_some_inv _ _ _ _ _ _ h
  have hshape := budgetLoop_trace_shape llm_model tokenizer thinking_budget
    fuel (build_input user_input tokenizer) 0 0 []
    (by simp) (fun _ => rfl) (by simp) List.chain'_nil (by simp)
  rw [hb] at hshape
  simp only [LoopOutcome.callTrace] at hshape
  obtain ⟨p1, p2, p3⟩ := hshape
  rw [ht]
  refine ⟨?_, p2, p3⟩
  intro e he
  rw [p1 e he]
  exact ⟨rfl, rfl, rfl⟩

/-- Helper: `count_thinking_token` only uses the tokenizer via `encode`. -/
theorem count_thinking_token_congr (out : RequestOutput)
    (tok1 tok2 : Tokenizer) (he : ∀ s, tok1.encode s = tok2.encode s) :
    count_thinking_token out tok1 = count_thinking_token out tok2 := by
  simp [count_thinking_token, he]

/-- Helper: the loop is a deterministic function of the model's responses
and the tokenizer's encodings. -/
theorem budgetLoop_congr (llm1 llm2 : LLM) (tok1 tok2 : Tokenizer) (B : Nat)
    (hg : ∀ s p, llm1.generate s p = llm2.generate s p)
    (he : ∀ s, tok1.encode s = tok2.encode s) :
    ∀ (fuel : Nat) (s : Str) (c i : Nat) (tr : List CallRecord),
      budgetLoop llm1 tok1 B fuel s c i tr =
        budgetLoop llm2 tok2 B fuel s c i tr := by
  intro fuel
  induction fuel with
  | zero => intro s c i tr; rfl
  | succ n ih =>
    intro s c i tr
    simp only [budgetLoop]
    rw [hg s (waitSamplingParams B c),
      count_thinking_token_congr _ tok1 tok2 he]
    split
    next => rfl
    next => exact ih _ _ _ _

/-- C9: determinism (two-run property): for identical budgets and
pointwise-identical mock model responses, tokenizer encodings, and chat
templates, two runs of `run_thinking_budget_sample` produce identical
results — in particular identical `iteration_count` and identical final
transcript `total_content`. -/
theorem two_runs_identical (llm1 llm2 : LLM) (tok1 tok2 : Tokenizer)
    (user_input : Str) (thinking_budget fuel : Nat)
    (hg : ∀ s p, llm1.generate s p = llm2.generate s p)
    (he : ∀ s, tok1.encode s = tok2.encode s)
    (ht : ∀ m a b c, tok1.apply_chat_template m a b c =
        tok2.apply_chat_template m a b c) :
    run_thinking_budget_sample llm1 tok1 user_input thinking_budget fuel =
      run_thinking_budget_sample llm2 tok2 user_input thinking_budget fuel := by
  have hbi : build_input user_input tok1 = build_input user_input tok2 := by
    simp [build_input, ht]
  simp only [run_thinking_budget_sample]
  rw [hbi, budgetLoop_congr llm1 llm2 tok1 tok2 thinking_budget hg he]
  cases budgetLoop llm2 tok2 thinking_budget fuel
      (build_input user_input tok2) 0 0 [] with
  | fuelExhausted tr => rfl
  | exited res => simp [count_token, he, hg]

/-- Helper: under a linear measured-count hypothesis, the second component
of `roundState` is `k * N`. -/
theorem roundState_snd (llm_model : LLM) (tokenizer : Tokenizer)
    (B N : Nat) (s0 : Str)
    (H : ∀ k, measuredSeq llm_model tokenizer B s0 k = (k + 1) * N) :
    ∀ k, (roundState llm_model tokenizer B s0 k).2 = k * N := by
  intro k
  cases k with
  | zero => simp [roundState]
  | succ m => exact H m

/-- Helper: if every generation call raises the measured cumulative
thinking-token count by exactly `N` (count after call `k` is `(k+1)*N`),
then from round `k` onward the loop exits after exactly
`B / N + 1 - k` further calls. -/
theorem budgetLoop_linear_aux (llm_model : LLM) (tokenizer : Tokenizer)
    (B N : Nat) (s0 : Str)
    (H : ∀ k, measuredSeq llm_model tokenizer B s0 k = (k + 1) * N)
    (hN : 0 < N) :
    ∀ (fuel k i : Nat) (tr : List CallRecord),
      k * N ≤ B → B / N + 1 - k ≤ fuel →
      ∃ res, budgetLoop llm_model tokenizer B fuel
          (roundState llm_model tokenizer B s0 k).1
          (roundState llm_model tokenizer B s0 k).2 i tr = .exited res ∧
        res.trace.length = tr.length + (B / N + 1 - k) ∧
        res.iteration_count = i + (B / N - k) ∧
        res.think_token_count = (B / N + 1) * N := by
  intro fuel
  induction fuel with
  | zero =>
    intro k i tr hk hfuel
    exfalso
    have hkd : k ≤ B / N := (Nat.le_div_iff_mul_le hN).mpr hk
    omega
  | succ n ih =>
    intro k i tr hk hfuel
    have hkd : k ≤ B / N := (Nat.le_div_iff_mul_le hN).mpr hk
    have hr2 : (count_thinking_token
        (llm_model.generate (roundState llm_model tokenizer B s0 k).1
          (waitSamplingParams B (roundState llm_model tokenizer B s0 k).2))
        tokenizer).2 = (k + 1) * N := H k
    simp only [budgetLoop]
    rw [hr2]
    by_cases hgt : (k + 1) * N > B
    · rw [if_pos hgt]
      have hkeq : k = B / N := by
        have : B / N < k + 1 := (Nat.div_lt_iff_lt_mul hN).mpr hgt
        omega
      refine ⟨_, rfl, ?_, ?_, ?_⟩
      · simp
        omega
      · simp
        omega
      · simp [hkeq]
    · rw [if_neg hgt]
      have hk1 : (k + 1) * N ≤ B := Nat.not_lt.mp hgt
      have hk1d : k + 1 ≤ B / N := (Nat.le_div_iff_mul_le hN).mpr hk1
      obtain ⟨res, heq, hlen, hiter, hcount⟩ :=
        ih (k + 1) (i + 1)
          (tr ++ [mkCallRecord (roundState llm_model tokenizer B s0 k).1 B
            (roundState llm_model tokenizer B s0 k).2 ((k + 1) * N)])
          hk1 (by omega)
      rw [roundState_snd llm_model tokenizer B N s0 H (k + 1)] at heq
      refine ⟨res, heq, ?_, ?_, hcount⟩
      · simp at hlen
        omega
      · omega

/-- C1 (amended): for every positive budget `B`, positive `N`, and every
model/tokenizer pair whose measured cumulative thinking-token count after
the `k`-th generation call is exactly `(k+1)*N` (a mock that adds exactly
`N` thinking tokens per call), the loop performs exactly `B / N + 1` rounds
(floor division plus one) before exiting, reporting `iteration_count =
B / N` and a final count of `(B / N + 1) * N`.  This equals `ceil(B / N)`
whenever `N` does not divide `B`, but is one more round when `N` divides
`B`. -/
theorem loop_round_count (llm_model : LLM) (tokenizer : Tokenizer)
    (B N fuel : Nat) (s0 : Str) (_hB : 0 < B) (hN : 0 < N)
    (H : ∀ k, measuredSeq llm_model tokenizer B s0 k = (k + 1) * N)
    (hfuel : B / N + 1 ≤ fuel) :
    ∃ res, budgetLoop llm_model tokenizer B fuel s0 0 0 [] = .exited res ∧
      res.trace.length = B / N + 1 ∧
      res.iteration_count = B / N ∧
      res.think_token_count = (B / N + 1) * N := by
  obtain ⟨res, heq, h1, h2, h3⟩ :=
    budgetLoop_linear_aux llm_model tokenizer B N s0 H hN fuel 0 0 []
      (by simp) (by omega)
  exact ⟨res, heq, by simpa using h1, by simpa using h2, h3⟩

theorem countX_append (s t : Str) : countX (s ++ t) = countX s + countX t := by
  simp [countX, List.filter_append]

theorem countX_replicate (n : Nat) : countX (List.replicate n 'X') = n := by
  induction n with
  | zero => rfl
  | succ m ih =>
    have h2 : countX ('X' :: List.replicate m 'X') =
        countX (List.replicate m 'X') + 1 := by
      simp [countX, List.filter_cons]
    rw [List.replicate_succ, h2, ih]

theorem tokX_encode_length (s : Str) : (tokX.encode s).length = countX s := by
  simp [tokX, countX]

/-- Helper: with the `N`-tokens-per-call mock model and the `X`-counting
tokenizer, the loop state never contains `<`, and both the accumulated
`X`-count and the measured count after `k` rounds equal `k * N`. -/
theorem mock_roundState_inv (N B : Nat) :
    ∀ k, '<' ∉ (roundState (mockLLM N) tokX B ['P'] k).1 ∧
      countX (roundState (mockLLM N) tokX B ['P'] k).1 = k * N ∧
      (roundState (mockLLM N) tokX B ['P'] k).2 = k * N := by
  intro k
  induction k with
  | zero =>
    refine ⟨?_, ?_, ?_⟩
    · show '<' ∉ (['P'] : Str)
      decide
    · rw [Nat.zero_mul]
      show countX ['P'] = 0
      decide
    · rw [Nat.zero_mul]
      rfl
  | succ m ih =>
    obtain ⟨hmem, hcnt, hsnd⟩ := ih
    have hnm : '<' ∉ (roundState (mockLLM N) tokX B ['P'] m).1 ++
        List.replicate N 'X' := by
      intro hmm
      rcases List.mem_append.mp hmm with hin | hin
      · exact hmem hin
      · rw [List.mem_replicate] at hin
        exact absurd hin.2 (by decide)
    have hct := count_thinking_token_of_not_mem
      { prompt := (roundState (mockLLM N) tokX B ['P'] m).1,
        text := List.replicate N 'X' } tokX hnm
    have hr : count_thinking_token
        ((mockLLM N).generate (roundState (mockLLM N) tokX B ['P'] m).1
          (waitSamplingParams B (roundState (mockLLM N) tokX B ['P'] m).2))
        tokX =
        ((roundState (mockLLM N) tokX B ['P'] m).1 ++ List.replicate N 'X',
         countX ((roundState (mockLLM N) tokX B ['P'] m).1 ++
           List.replicate N 'X')) := by
      rw [show (mockLLM N).generate (roundState (mockLLM N) tokX B ['P'] m).1
            (waitSamplingParams B (roundState (mockLLM N) tokX B ['P'] m).2) =
          { prompt := (roundState (mockLLM N) tokX B ['P'] m).1,
            text := List.replicate N 'X' } from rfl, hct]
      rw [Prod.mk.injEq]
      exact ⟨rfl, tokX_encode_length _⟩
    have hfst : (roundState (mockLLM N) tokX B ['P'] (m + 1)).1 =
        (roundState (mockLLM N) tokX B ['P'] m).1 ++ List.replicate N 'X' ++
          waitMarker := by
      conv_lhs => rw [roundState]
      rw [hr]
    have hsnd1 : (roundState (mockLLM N) tokX B ['P'] (m + 1)).2 =
        countX ((roundState (mockLLM N) tokX B ['P'] m).1 ++
          List.replicate N 'X') := by
      conv_lhs => rw [roundState]
      rw [hr]
    refine ⟨?_, ?_, ?_⟩
    · rw [hfst]
      intro hmm
      rcases List.mem_append.mp hmm with hin | hin
      · exact hnm hin
      · revert hin
        decide
    · rw [hfst, countX_append, countX_append, hcnt, countX_replicate,
        Nat.succ_mul]
      have hw : countX waitMarker = 0 := by decide
      rw [hw, Nat.add_zero]
    · rw [hsnd1, countX_append, hcnt, countX_replicate, Nat.succ_mul]

/-- Helper: the mock model adds exactly `N` measured thinking tokens per
generation call: the cumulative count after call `k` is `(k+1)*N`. -/
theorem mock_measured (N B k : Nat) :
    measuredSeq (mockLLM N) tokX B ['P'] k = (k + 1) * N :=
  (mock_roundState_inv N B (k + 1)).2.2

/-- C1 witness: the spec's example scenario, budget 100 with 40 measured
thinking tokens per call: the loop runs `100 / 40 + 1 = 3` rounds, reports
`iteration_count = 2`, and exits with a cumulative count of 120. -/
theorem loop_round_count_witness :
    (0 < 100 ∧ 0 < 40 ∧ 100 / 40 + 1 ≤ 10) ∧
    ∃ res, budgetLoop (mockLLM 40) tokX 100 10 ['P'] 0 0 [] = .exited res ∧
      res.trace.length = 3 ∧ res.iteration_count = 2 ∧
      res.think_token_count = 120 :=
  ⟨⟨by decide, by decide, by decide⟩,
   loop_round_count (mockLLM 40) tokX 100 40 10 ['P'] (by decide) (by decide)
     (fun k => mock_measured 40 100 k) (by decide)⟩

/-- C1 counterexample: with budget 1 and a mock model measuring exactly one
thinking token per call (`measuredSeq = k + 1`), the exited loop performs 2
rounds, not `ceil(1 / 1) = 1` rounds: the `ceil(B / N)` formula fails
whenever `N` divides `B`, because the exit test is strict. -/
theorem ceil_round_count_counterexample :
    (budgetLoop (mockLLM 1) tokX 1 10 ['P'] 0 0 []).isExited = true ∧
    (budgetLoop (mockLLM 1) tokX 1 10 ['P'] 0 0 []).callTrace.length = 2 ∧
    measuredSeq (mockLLM 1) tokX 1 ['P'] 0 = 1 ∧
    measuredSeq (mockLLM 1) tokX 1 ['P'] 1 = 2 ∧
    (1 + 1 - 1) / 1 = 1 := by
  decide

/-- C3 witness: a concrete exited run whose loop-exit `think_token_count`
exceeds the budget 100. -/
theorem exit_think_count_gt_budget_witness :
    ∃ r, run_thinking_budget_sample (mockLLM 40) tokX [] 100 10 = some r ∧
      100 < r.think_token_count := by
  cases hr : run_thinking_budget_sample (mockLLM 40) tokX [] 100 10 with
  | none => exact absurd hr (by decide)
  | some r =>
    exact ⟨r, rfl, exit_think_count_gt_budget (mockLLM 40) tokX [] 100 10 r hr⟩

/-- C3 counterexample: with a model whose continuation opens with its own
`</think>` marker, the loop exits with `think_token_count = 6 > 5`, yet the
thinking-token count reported after loop exit (recomputed from the final
transcript between `<think>` and the first `</think>`) is `0 ≤ 5`. -/
theorem reported_thinking_count_not_gt_budget :
    (run_thinking_budget_sample earlyCloseLLM tokX [] 5 10).map
      (fun r => (r.think_token_count, r.reported_thinking_count)) =
      some (6, 0) := by
  decide

/-- C5 witness: a concrete exited run with exactly one post-loop call of
the required shape. -/
theorem final_call_unique_shape_witness :
    ∃ r, run_thinking_budget_sample (mockLLM 40) tokX [] 100 10 = some r ∧
      r.post_loop_calls =
        [(r.loop_outputs.prompt ++ r.loop_outputs.text ++ forcedCloseMarker,
          finalSamplingParams)] ∧
      finalSamplingParams.max_tokens = 4096 := by
  cases hr : run_thinking_budget_sample (mockLLM 40) tokX [] 100 10 with
  | none => exact absurd hr (by decide)
  | some r =>
    exact ⟨r, rfl, final_call_unique_shape (mockLLM 40) tokX [] 100 10 r hr⟩

/-- C5 counterexample: with budget 4097 (each `X` costing 100 tokens, so
the first call already measures 4200 > 4097), the single in-loop call is
capped at 4097 while the final call is capped at 4096: the final cap is not
larger than the caps used inside the loop. -/
theorem final_cap_not_larger_counterexample :
    (run_thinking_budget_sample (mockLLM 42) tok100 [] 4097 10).map
      (fun r => (r.loop_trace.map (fun e => e.params.max_tokens),
                 r.post_loop_calls.map (fun c => c.2.max_tokens))) =
      some ([4097], [4096]) ∧ ¬ ((4096 : Int) > 4097) := by
  have hnm : '<' ∉ (['P'] : Str) ++ List.replicate 42 'X' := by decide
  have hct := count_thinking_token_of_not_mem
    { prompt := (['P'] : Str), text := List.replicate 42 'X' } tok100 hnm
  have hlen : (tok100.encode ((['P'] : Str) ++ List.replicate 42 'X')).length
      = 4200 := by
    show (List.replicate
        (100 * (((['P'] : Str) ++ List.replicate 42 'X').filter
          (fun c => c == 'X')).length) 1).length = 4200
    rw [List.length_replicate]
    decide
  have hr2 : count_thinking_token
      { prompt := (['P'] : Str), text := List.replicate 42 'X' } tok100 =
      ((['P'] : Str) ++ List.replicate 42 'X', 4200) := by
    rw [hct, Prod.mk.injEq]
    exact ⟨rfl, hlen⟩
  have hloop : budgetLoop (mockLLM 42) tok100 4097 10 ['P'] 0 0 [] =
      .exited
        { outputs := { prompt := ['P'], text := List.replicate 42 'X' },
          think_token_count := 4200, iteration_count := 0,
          trace := [mkCallRecord ['P'] 4097 0 4200] } := by
    have hgen : (mockLLM 42).generate ['P'] (waitSamplingParams 4097 0) =
        { prompt := (['P'] : Str), text := List.replicate 42 'X' } := rfl
    simp only [budgetLoop]
    rw [hgen, hr2, if_pos (by decide : (4200 : Nat) > 4097)]
    rfl
  constructor
  · simp only [run_thinking_budget_sample]
    rw [show (build_input [] tok100 : Str) = ['P'] from rfl, hloop]
    decide
  · decide

/-- C6 witness: with budget 5 and a model measuring 6 thinking tokens on
its first call, the loop exits after exactly one round. -/
theorem first_call_exceeding_budget_one_round_witness :
    5 < (count_thinking_token
        (earlyCloseLLM.generate ['P'] (waitSamplingParams 5 0)) tokX).2 ∧
    ∃ res, budgetLoop earlyCloseLLM tokX 5 10 ['P'] 0 0 [] = .exited res ∧
      res.trace.length = 1 :=
  ⟨by decide,
   first_call_exceeding_budget_one_round earlyCloseLLM tokX 5 9 ['P']
     (by decide)⟩

/-- C7 witness: a concrete exited run whose final generation input ends
with the forced reasoning-close marker. -/
theorem final_input_ends_with_close_marker_witness :
    ∃ r, run_thinking_budget_sample earlyCloseLLM tokX [] 5 10 = some r ∧
      ∀ c ∈ r.post_loop_calls, forcedCloseMarker <:+ c.1 := by
  cases hr : run_thinking_budget_sample earlyCloseLLM tokX [] 5 10 with
  | none => exact absurd hr (by decide)
  | some r =>
    exact ⟨r, rfl,
      final_input_ends_with_close_marker earlyCloseLLM tokX [] 5 10 r hr⟩

/-- C8 witness: a concrete exited run whose in-loop calls all carry the
required sampling parameters. -/
theorem in_loop_call_params_witness :
    ∃ r, run_thinking_budget_sample (mockLLM 40) tokX [] 100 10 = some r ∧
      ((∀ e ∈ r.loop_trace,
          e.params.max_tokens = (100 : Int) - (e.count_before : Int) ∧
          e.params.stop = some closeTag ∧
          e.params.skip_special_tokens = false) ∧
       (∀ e ∈ r.loop_trace.head?, e.count_before = 0) ∧
       List.Chain' (fun a b => b.count_before = a.count_after)
         r.loop_trace) := by
  cases hr : run_thinking_budget_sample (mockLLM 40) tokX [] 100 10 with
  | none => exact absurd hr (by decide)
  | some r =>
    exact ⟨r, rfl, in_loop_call_params (mockLLM 40) tokX [] 100 10 r hr⟩

/-- C9 witness: instantiating the two-run determinism theorem at a concrete
mock model, tokenizer, and budget. -/
theorem two_runs_identical_witness :
    run_thinking_budget_sample (mockLLM 40) tokX [] 100 10 =
      run_thinking_budget_sample (mockLLM 40) tokX [] 100 10 :=
  two_runs_identical (mockLLM 40) (mockLLM 40) tokX tokX [] 100 10
    (fun _ _ => rfl) (fun _ => rfl) (fun _ _ _ _ => rfl)

/-- C10 witness: a concrete run whose first call exceeds the budget: one
loop-body execution, reported `iteration_count` 0. -/
theorem iteration_count_undercounts_rounds_witness :
    ∃ r, run_thinking_budget_sample earlyCloseLLM tokX [] 5 10 = some r ∧
      r.iteration_count + 1 = r.loop_trace.length := by
  cases hr : run_thinking_budget_sample earlyCloseLLM tokX [] 5 10 with
  | none => exact absurd hr (by decide)
  | some r =>
    exact ⟨r, rfl,
      iteration_count_undercounts_rounds earlyCloseLLM tokX [] 5 10 r hr⟩

end S1
